import Mathlib

/-!
Verification of the persistproc process supervisor.

The repository contains two parallel iterations of the process manager:

* `src/persistproc/core.py` (class `ProcessManager`, used by `server.py`,
  exercised by `tests/core/test_process_manager.py`), and
* `src/persistproc/process_manager.py` (class `ProcessManager`, used by
  `serve.py` / `tools.py`).

Definitions prefixed `core` embed functions of `core.py`; definitions
prefixed `pm` embed functions of `process_manager.py`.  Real time, the OS
scheduler and the child process are abstracted by explicit oracles
(`StopBehavior`, poll results); ISO-8601 timestamp parsing
(`datetime.fromisoformat` plus the `Z` → `+00:00` rewrite both files apply) is
abstracted as a parameter `parseIso : String → Option TS` over a linearly
ordered type of instants, so every theorem quantified over `parseIso` covers
the real parser.
-/

namespace Persistproc

/-- Process status strings used by both iterations:
`running | exited | terminated | failed`. -/
inductive Status
  | running
  | exited
  | terminated
  | failed
deriving DecidableEq, Repr

/-- Signals the supervisor delivers to the process group rooted at the child
pid (`os.killpg` in `_send_signal` of both files). -/
inductive Sig
  | SIGTERM
  | SIGKILL
deriving DecidableEq, Repr

/-- Registry entry of `process_manager.py` (`_ProcEntry`).  `proc` models the
`subprocess.Popen` handle as an opaque token: `some h` when a handle is held,
`none` after it is cleared.  `logStem` models the `log_prefix` field. -/
structure ProcEntry where
  pid : Nat
  command : List String
  workingDirectory : Option String
  environment : Option (List (String × String))
  startTime : String
  status : Status
  logStem : String
  label : String
  exitCode : Option Int := none
  exitTime : Option String := none
  proc : Option Nat := none
deriving DecidableEq, Repr

/-- Registry entry of `core.py` (`ProcessInfo`).  Unlike `_ProcEntry`, the
command is kept as the raw string and there is no label. -/
structure CoreProcessInfo where
  pid : Nat
  command : String
  startTime : String
  status : Status
  logStem : String
  workingDirectory : Option String := none
  environment : Option (List (String × String)) := none
  exitCode : Option Int := none
  exitTime : Option String := none
  proc : Option Nat := none
deriving DecidableEq, Repr

/-- Label generation, `process_manager.get_label`.  Python truthiness: an
explicit label that is `None` or the empty string is ignored; a missing or
empty working directory displays as `"."`; a command longer than 50
characters is truncated to its first 47 characters plus `"..."`. -/
def get_label (explicitLabel : Option String) (command : String)
    (workingDirectory : Option String) : String :=
  if explicitLabel.getD "" ≠ "" then explicitLabel.getD ""
  else
    let cmdDisplay :=
      if command.length ≤ 50 then command else String.mk (command.data.take 47) ++ "..."
    let wdDisplay :=
      match workingDirectory with
      | some wd => if wd = "" then "." else wd
      | none => "."
    cmdDisplay ++ " in " ++ wdDisplay

/-- Result shape of a stop call, `process_types.StopProcessResult`. -/
structure StopProcessResult where
  exitCode : Option Int := none
  error : Option String := none
deriving DecidableEq, Repr

/-- Oracle describing the observable behaviour of the OS process during one
stop call: whether the process group still exists when each signal is
delivered (`ProcessLookupError` otherwise) and whether the process exits
within each bounded wait (`_wait_for_exit` with the 8 s graceful timeout and
the 2 s kill timeout; the timeout values only set wait durations and are
absorbed by the oracle). -/
structure StopBehavior where
  aliveAtTerm : Bool
  exitsGraceful : Bool
  aliveAtKill : Bool
  exitsKill : Bool
deriving DecidableEq, Repr

/-- `_wait_for_exit` of both files: a missing handle counts as already
exited; otherwise the oracle decides whether the wait succeeds. -/
def waitForExit (proc : Option Nat) (exits : Bool) : Bool :=
  match proc with
  | none => true
  | some _ => exits

/-- Outcome of the `process_manager.py` stop path: the ordered list of
signals delivered to the process group, the returned result, and the entry
after the call. -/
structure PmStopOutcome where
  signals : List Sig
  result : StopProcessResult
  entry : ProcEntry
deriving DecidableEq, Repr

/-- The part of `ProcessManager.stop` (process_manager.py, lines 394-440)
after the selector has resolved to registry entry `ent`: reject a non-running
entry with an error; otherwise send SIGTERM (swallowing
`ProcessLookupError`), wait the graceful timeout, escalate to SIGKILL only
when `not exited and not force`, and on exit record
`status = terminated`, `proc = None`, `exit_code = exit_code or 0`,
`exit_time = now`. -/
def pmStopResolved (ent : ProcEntry) (force : Bool) (b : StopBehavior)
    (now : String) : PmStopOutcome :=
  if ent.status ≠ Status.running then
    { signals := []
      result := { error := some ("Process " ++ toString ent.pid ++ " is not running") }
      entry := ent }
  else
    let sigsTerm : List Sig := if b.aliveAtTerm then [Sig.SIGTERM] else []
    let exited1 := waitForExit ent.proc b.exitsGraceful
    let sigsKill : List Sig :=
      if !exited1 && !force then (if b.aliveAtKill then [Sig.SIGKILL] else []) else []
    let exited2 :=
      if !exited1 && !force then waitForExit ent.proc b.exitsKill else exited1
    if !exited2 then
      { signals := sigsTerm ++ sigsKill
        result := { error := some "timeout" }
        entry := ent }
    else
      let ent' := { ent with
        status := Status.terminated
        proc := none
        exitCode := some (ent.exitCode.getD 0)
        exitTime := some now }
      { signals := sigsTerm ++ sigsKill
        result := { exitCode := ent'.exitCode }
        entry := ent' }

/-- `ProcessManager._perform_graceful_shutdown` (core.py, lines 212-250):
choose SIGKILL when `force` else SIGTERM as the first signal; a
`ProcessLookupError` marks the entry terminated immediately; otherwise wait
the graceful timeout and, when the process survives it and `force` is not
set, escalate to SIGKILL (again swallowing a lookup error) and wait the kill
timeout.  Returns the delivered signals and the (possibly mutated) entry. -/
def corePerformGracefulShutdown (p : CoreProcessInfo) (force : Bool)
    (b : StopBehavior) : List Sig × CoreProcessInfo :=
  let gracefulSig := if force then Sig.SIGKILL else Sig.SIGTERM
  if !b.aliveAtTerm then
    ([], { p with status := Status.terminated })
  else if waitForExit p.proc b.exitsGraceful then
    ([gracefulSig], p)
  else if force then
    ([gracefulSig], p)
  else if b.aliveAtKill then
    ([gracefulSig, Sig.SIGKILL], p)
  else
    ([gracefulSig], p)

/-- Outcome of `core.py`'s `stop_process`: delivered signals, the returned
snapshot or raised error, and the entry after the call. -/
structure CoreStopOutcome where
  signals : List Sig
  result : Except String CoreProcessInfo
  entry : Option CoreProcessInfo
deriving Repr

/-- `ProcessManager.stop_process` (core.py, lines 252-278) on the looked-up
entry: a missing pid raises; a non-running entry is returned as-is
(idempotent, no signal); otherwise the graceful-shutdown sequence runs and
the entry is updated with `proc = None` and, if still marked running,
`status = terminated`. -/
def coreStopProcess (found : Option CoreProcessInfo) (force : Bool)
    (b : StopBehavior) : CoreStopOutcome :=
  match found with
  | none => { signals := [], result := .error "Process not found.", entry := none }
  | some p =>
    if p.status ≠ Status.running then
      { signals := [], result := .ok p, entry := some p }
    else
      let r := corePerformGracefulShutdown p force b
      let p2 := { r.2 with
        proc := none
        status := if r.2.status = Status.running then Status.terminated else r.2.status }
      { signals := r.1, result := .ok p2, entry := some p2 }

/-- Per-entry body of the `process_manager.py` monitor loop
(`_monitor_loop`, lines 712-743): skip entries not running or without a
handle; when a poll observes a completion code, set `status = "exited"`
unconditionally and record `exit_code` and `exit_time`.  The handle is not
cleared. -/
def pmMonitorUpdate (ent : ProcEntry) (poll : Option Int) (now : String) : ProcEntry :=
  if ent.status ≠ Status.running ∨ ent.proc = none then ent
  else
    match poll with
    | none => ent
    | some code =>
      { ent with status := Status.exited, exitCode := some code, exitTime := some now }

/-- Per-entry body of the `core.py` monitor loop (`_monitor_processes`,
lines 124-143): only running entries with a handle are polled; a completion
code sets `exit_code`, `exit_time`, `status = exited` when the code is 0 and
`failed` otherwise, and clears the handle, all in one update. -/
def coreMonitorUpdate (p : CoreProcessInfo) (poll : Option Int) (now : String) :
    CoreProcessInfo :=
  if p.status ≠ Status.running then p
  else if p.proc = none then p
  else
    match poll with
    | none => p
    | some code =>
      { p with
        exitCode := some code
        exitTime := some now
        status := if code = 0 then Status.exited else Status.failed
        proc := none }

/-- Dictionary lookup `self._processes.get(pid)` /
`if pid not in self._processes` over the registry modelled as an association
list. -/
def regFind {α : Type} (reg : List (Nat × α)) (pid : Nat) : Option α :=
  (reg.find? fun kv => kv.1 == pid).map (·.2)

/-- Leading token of a log line, `line.split(" ", 1)[0]`: the prefix of the
line up to (excluding) the first space, the whole line when it has none. -/
def firstToken (s : String) : String :=
  String.mk (s.data.takeWhile (· ≠ ' '))

/-- Python tail slice `l[-n:]` for an integer `n`: for positive `n` the last
`n` elements (all of them when `n ≥ len`), for `n = 0` the whole list
(`l[0:]`), for negative `n` the suffix starting at index `-n`. -/
def pySliceLast {α : Type} (n : Int) (l : List α) : List α :=
  if 0 < n then l.drop (l.length - n.toNat) else l.drop (-n).toNat

/-- Result shape of `get_output`, `process_types.ProcessOutputResult` (it has
no error field; failures surface as raised exceptions). -/
structure ProcessOutputResult where
  output : List String
deriving DecidableEq, Repr

section LogReader

variable {TS : Type} [LinearOrder TS]

/-- Timestamp filter of `process_manager.get_output` (the list comprehensions
at lines 610-619): `_parse_iso` is applied to every line's leading token with
no exception handling, so the first unparseable line aborts the whole call
with an error. -/
def pmFilterLines (parseIso : String → Option TS) (keep : TS → Bool) :
    List String → Except String (List String)
  | [] => .ok []
  | ln :: rest =>
    match parseIso (firstToken ln) with
    | none => .error "Invalid isoformat string"
    | some t =>
      match pmFilterLines parseIso keep rest with
      | .error e => .error e
      | .ok r => .ok (if keep t then ln :: r else r)

/-- Timestamp filter of `core.get_process_output` (lines 363-374 and
386-397): each line's leading token is parsed inside a
`try/except (ValueError, IndexError): continue`, so unparseable lines are
silently dropped. -/
def coreFilterLines (parseIso : String → Option TS) (keep : TS → Bool)
    (l : List String) : List String :=
  l.filter fun ln =>
    match parseIso (firstToken ln) with
    | none => false
    | some t => keep t

/-- The `since_time` step of `process_manager.get_output`: skipped when the
argument is absent or empty (Python truthiness of `if since_time:`); a
malformed bound raises; otherwise lines with timestamp `≥ since_dt` are
kept by the raising filter. -/
def pmApplySince (parseIso : String → Option TS) (sinceTime : Option String)
    (l : List String) : Except String (List String) :=
  match sinceTime with
  | none => .ok l
  | some st =>
    if st = "" then .ok l
    else
      match parseIso st with
      | none => .error "Invalid isoformat string"
      | some sinceDt => pmFilterLines parseIso (fun t => decide (sinceDt ≤ t)) l

/-- The `before_time` step of `process_manager.get_output`: as
`pmApplySince` but keeping lines with timestamp `< before_dt`; it runs after
the `since_time` step. -/
def pmApplyBefore (parseIso : String → Option TS) (beforeTime : Option String)
    (l : List String) : Except String (List String) :=
  match beforeTime with
  | none => .ok l
  | some bt =>
    if bt = "" then .ok l
    else
      match parseIso bt with
      | none => .error "Invalid isoformat string"
      | some beforeDt => pmFilterLines parseIso (fun t => decide (t < beforeDt)) l

/-- The `lines` step of `process_manager.get_output`
(`if lines is not None: all_lines = all_lines[-lines:]`). -/
def pmApplyLines (lines : Option Int) (l : List String) : List String :=
  match lines with
  | none => l
  | some n => pySliceLast n l

/-- The `since_time` step of `core.get_process_output`: a malformed bound
raises `Invalid ISO8601 timestamp format`; per-line failures are absorbed by
the dropping filter. -/
def coreApplySince (parseIso : String → Option TS) (sinceTime : Option String)
    (l : List String) : Except String (List String) :=
  match sinceTime with
  | none => .ok l
  | some st =>
    if st = "" then .ok l
    else
      match parseIso st with
      | none => .error "Invalid ISO8601 timestamp format for since_time"
      | some sinceDt => .ok (coreFilterLines parseIso (fun t => decide (sinceDt ≤ t)) l)

/-- The `before_time` step of `core.get_process_output`. -/
def coreApplyBefore (parseIso : String → Option TS) (beforeTime : Option String)
    (l : List String) : Except String (List String) :=
  match beforeTime with
  | none => .ok l
  | some bt =>
    if bt = "" then .ok l
    else
      match parseIso bt with
      | none => .error "Invalid ISO8601 timestamp format for before_time"
      | some beforeDt => .ok (coreFilterLines parseIso (fun t => decide (t < beforeDt)) l)

/-- The `lines` step of `core.get_process_output`
(`if lines: return all_lines[-lines:]`): Python truthiness, so `lines = 0`
and `lines = None` both return everything. -/
def coreApplyLines (lines : Option Int) (l : List String) : List String :=
  match lines with
  | none => l
  | some n => if n = 0 then l else pySliceLast n l

/-- The straight-line filtering block of `process_manager.get_output`
(lines 604-624): the `since_time` filter, then the `before_time` filter
(each raising on an unparseable bound or line), then the tail step. -/
def pmFilterPipeline (parseIso : String → Option TS)
    (beforeTime sinceTime : Option String) (lines : Option Int)
    (all0 : List String) : Except String (List String) :=
  match pmApplySince parseIso sinceTime all0 with
  | .error e => .error e
  | .ok all1 =>
    match pmApplyBefore parseIso beforeTime all1 with
    | .error e => .error e
    | .ok all2 => .ok (pmApplyLines lines all2)

/-- `ProcessManager.get_output` (process_manager.py, lines 565-624).  The
file system is modelled by `fs`, mapping the path `<log_prefix>.<stream>` to
its lines when the file exists; `serverLog` is `some contents` exactly when
`self._server_log_path` is configured and exists.  Control flow follows the
source: the registry lookup comes first and an unknown pid is a soft-failure
returning an empty successful output; the `pid == 0` special case is only
reachable for a registered pid 0; then stream validation, missing-file
check, and the filter pipeline. -/
def pmGetOutput (parseIso : String → Option TS) (reg : List (Nat × ProcEntry))
    (serverLog : Option (List String)) (fs : String → Option (List String))
    (pid : Nat) (stream : String) (lines : Option Int)
    (beforeTime sinceTime : Option String) : Except String ProcessOutputResult :=
  match regFind reg pid with
  | none => .ok { output := [] }
  | some ent =>
    if pid = 0 then
      .ok { output := serverLog.getD [] }
    else if stream ∉ (["stdout", "stderr", "combined"] : List String) then
      .error "stream must be stdout|stderr|combined"
    else
      match fs (ent.logStem ++ "." ++ stream) with
      | none => .ok { output := [] }
      | some all0 =>
        match pmFilterPipeline parseIso beforeTime sinceTime lines all0 with
        | .error e => .error e
        | .ok res => .ok { output := res }

/-- The straight-line filtering block of `core.get_process_output`
(lines 353-402): the `since_time` filter, then the `before_time` filter
(raising only on a malformed bound), then the truthiness tail step. -/
def coreFilterPipeline (parseIso : String → Option TS)
    (beforeTime sinceTime : Option String) (lines : Option Int)
    (all0 : List String) : Except String (List String) :=
  match coreApplySince parseIso sinceTime all0 with
  | .error e => .error e
  | .ok all1 =>
    match coreApplyBefore parseIso beforeTime all1 with
    | .error e => .error e
    | .ok all2 => .ok (coreApplyLines lines all2)

/-- The log-file resolution of `core.get_process_output` (lines 329-347):
for `pid = 0` the server's own log file with no registry lookup and no
stream validation; otherwise stream validation, entry resolution (raising
when absent) and the per-process file. -/
def coreResolveLogFile (reg : List (Nat × CoreProcessInfo))
    (serverLog : Option (List String)) (fs : String → Option (List String))
    (pid : Nat) (stream : String) : Except String (Option (List String)) :=
  if pid = 0 then .ok serverLog
  else if stream ∉ (["stdout", "stderr", "combined"] : List String) then
    .error "Stream must be stdout, stderr, or combined."
  else
    match regFind reg pid with
    | none => .error ("Process with PID " ++ toString pid ++ " not found.")
    | some p => .ok (fs (p.logStem ++ "." ++ stream))

/-- `ProcessManager.get_process_output` (core.py, lines 319-402): resolve
the log file, return an empty list when it is missing, otherwise run the
absorbing filters and the truthiness tail step. -/
def coreGetProcessOutput (parseIso : String → Option TS)
    (reg : List (Nat × CoreProcessInfo)) (serverLog : Option (List String))
    (fs : String → Option (List String)) (pid : Nat) (stream : String)
    (lines : Option Int) (beforeTime sinceTime : Option String) :
    Except String (List String) :=
  match coreResolveLogFile reg serverLog fs pid stream with
  | .error e => .error e
  | .ok none => .ok []
  | .ok (some all0) => coreFilterPipeline parseIso beforeTime sinceTime lines all0

end LogReader

/-! Registry state machine of `process_manager.py`.  Operations are modelled
at call granularity (each call holds the registry lock for its mutations, and
the claims quantify over registry states between calls). -/

/-- The registry `self._processes`, a dict preserving insertion order. -/
abbrev Reg := List (Nat × ProcEntry)

/-- Dict assignment `self._processes[pid] = ent`: replace the entry when the
key exists, otherwise append. -/
def regInsert (reg : Reg) (pid : Nat) (e : ProcEntry) : Reg :=
  if reg.any fun kv => kv.1 == pid then
    reg.map fun kv => if kv.1 == pid then (pid, e) else kv
  else reg ++ [(pid, e)]

/-- In-place mutation of the entry found for `pid` (Python mutates the shared
`_ProcEntry` object; the dict key set is unchanged). -/
def regUpdate (reg : Reg) (pid : Nat) (e : ProcEntry) : Reg :=
  reg.map fun kv => if kv.1 == pid then (pid, e) else kv

/-- Arguments of `ProcessManager.start`.  `tokens` carries the result of
`shlex.split(command)` as data (shell tokenization itself is not modelled;
no claim depends on it). -/
structure StartArgs where
  command : String
  tokens : List String
  workingDirectory : Option String
  environment : Option (List (String × String))
  label : Option String

/-- Nondeterministic outcome of `subprocess.Popen` (plus the
working-directory existence check, whose failure also leaves the registry
untouched): either a spawn failure or a child with the OS-chosen pid. -/
inductive SpawnResult
  | fail
  | ok (pid : Nat)

/-- Duplicate-label scan of `ProcessManager.start` (process_manager.py,
lines 217-224): is some registry entry running with this label? -/
def pmDupCheck (reg : Reg) (lab : String) : Bool :=
  reg.any fun kv => decide (kv.2.label = lab ∧ kv.2.status = Status.running)

/-- `ProcessManager.start` (process_manager.py, lines 198-295) as a registry
transition: compute the label, refuse a duplicate running label (registry
unchanged), propagate a spawn failure (registry unchanged, also covering the
working-directory existence check), otherwise insert a fresh running entry
under the child's pid.  The log prefix abbreviates the sanitized-command
suffix of `_escape_cmd` as ".cmd"; no claim depends on it. -/
def pmStart (reg : Reg) (a : StartArgs) (spawn : SpawnResult)
    (startTime : String) : Reg × Except String Nat :=
  let lab := get_label a.label a.command a.workingDirectory
  if pmDupCheck reg lab then
    (reg, .error ("Process with label already running"))
  else
    match spawn with
    | .fail => (reg, .error "Failed to start process")
    | .ok pid =>
      let ent : ProcEntry := {
        pid := pid
        command := a.tokens
        workingDirectory := a.workingDirectory
        environment := a.environment
        startTime := startTime
        status := Status.running
        logStem := toString pid ++ ".cmd"
        label := lab
        proc := some pid }
      (regInsert reg pid ent, .ok pid)

/-- `ProcessManager.stop` as a registry transition on an explicit pid (label
and command selectors resolve to a pid first, so every stop call is covered):
the resolved entry is mutated in place by `pmStopResolved`. -/
def pmStopReg (reg : Reg) (pid : Nat) (force : Bool) (b : StopBehavior)
    (now : String) : Reg × StopProcessResult :=
  match regFind reg pid with
  | none => (reg, { error := some "Process not found" })
  | some ent =>
    let o := pmStopResolved ent force b now
    (regUpdate reg pid o.entry, o.result)

/-- One pass of the monitor loop over the registry snapshot, with `poll`
giving each pid's observed completion code, if any. -/
def pmMonitorTick (reg : Reg) (poll : Nat → Option Int) (now : String) : Reg :=
  reg.map fun kv => (kv.1, pmMonitorUpdate kv.2 (poll kv.1) now)

/-- The operations that touch the registry.  `restart` is stop followed by
start and `kill_persistproc` is a sequence of stops, so sequences of these
three operations cover every reachable registry state. -/
inductive PmOp
  | startOp (a : StartArgs) (spawn : SpawnResult) (t : String)
  | stopOp (pid : Nat) (force : Bool) (b : StopBehavior) (now : String)
  | monitorOp (poll : Nat → Option Int) (now : String)

/-- Effect of one operation on the registry. -/
def applyOp (reg : Reg) : PmOp → Reg
  | .startOp a spawn t => (pmStart reg a spawn t).1
  | .stopOp pid force b now => (pmStopReg reg pid force b now).1
  | .monitorOp poll now => pmMonitorTick reg poll now

/-- Registry states reachable from the empty registry the server boots
with. -/
inductive Reachable : Reg → Prop
  | init : Reachable []
  | step {r : Reg} (h : Reachable r) (op : PmOp) : Reachable (applyOp r op)

/-- No two registry entries (distinguished by their key) with status
`running` share a label. -/
def RunningLabelsUnique (reg : Reg) : Prop :=
  ∀ p1 p2, p1 ∈ reg → p2 ∈ reg →
    p1.2.status = Status.running → p2.2.status = Status.running →
    p1.2.label = p2.2.label → p1.1 = p2.1

/-! Concrete instances used to evaluate the models on explicit inputs. -/

/-- A running child of the rewritten manager. -/
def sleepEntry : ProcEntry :=
  { pid := 11
    command := ["sleep", "60"]
    workingDirectory := some "/tmp"
    environment := none
    startTime := "2024-01-01T00:00:00.000Z"
    status := Status.running
    logStem := "11.sleep_60"
    label := "sleep 60 in /tmp"
    proc := some 11 }

/-- The same child as recorded by the core manager. -/
def coreSleepEntry : CoreProcessInfo :=
  { pid := 11
    command := "sleep 60"
    startTime := "2024-01-01T00:00:00.000Z"
    status := Status.running
    logStem := "11.sleep_60"
    workingDirectory := some "/tmp"
    proc := some 11 }

/-- An entry that already completed on its own with exit code 3. -/
def exitedEntry : ProcEntry :=
  { sleepEntry with
    status := Status.exited
    exitCode := some 3
    exitTime := some "2024-01-01T00:02:00.000Z"
    proc := none }

/-- The core-manager version of `exitedEntry`. -/
def coreExitedEntry : CoreProcessInfo :=
  { coreSleepEntry with
    status := Status.exited
    exitCode := some 3
    exitTime := some "2024-01-01T00:02:00.000Z"
    proc := none }

/-- A child that survives every signal within the bounded waits. -/
def stubbornChild : StopBehavior :=
  { aliveAtTerm := true
    exitsGraceful := false
    aliveAtKill := true
    exitsKill := false }

/-- Decimal digit value of a character, if any. -/
def digitVal (c : Char) : Option Nat :=
  if '0' ≤ c ∧ c ≤ '9' then some (c.toNat - 48) else none

/-- Concrete instantiation of the abstract timestamp parser: timestamps are
decimal naturals, so the filter pipeline can be evaluated on explicit
inputs. -/
def natParse (s : String) : Option Nat :=
  if s.data.isEmpty then none
  else
    s.data.foldl (fun acc c =>
      match acc, digitVal c with
      | some n, some d => some (10 * n + d)
      | _, _ => none) (some 0)

/-- A registered entry whose stdout log is `demoFs "7.demo.stdout"`. -/
def demoEntry : ProcEntry :=
  { pid := 7
    command := ["demo"]
    workingDirectory := none
    environment := none
    startTime := "t0"
    status := Status.running
    logStem := "7.demo"
    label := "demo in ."
    proc := some 7 }

/-- The core-manager version of `demoEntry`. -/
def coreDemoEntry : CoreProcessInfo :=
  { pid := 7
    command := "demo"
    startTime := "t0"
    status := Status.running
    logStem := "7.demo"
    proc := some 7 }

/-- A two-line stdout log; each line starts with a numeric timestamp. -/
def demoLines : List String := ["1 a\n", "2 b\n"]

def demoReg : List (Nat × ProcEntry) := [(7, demoEntry)]

def coreDemoReg : List (Nat × CoreProcessInfo) := [(7, coreDemoEntry)]

def demoFs : String → Option (List String) :=
  fun p => if p = "7.demo.stdout" then some demoLines else none

/-- A log file whose single line has no leading timestamp. -/
def badLineFs : String → Option (List String) :=
  fun p => if p = "7.demo.stdout" then some ["hello world\n"] else none

/-- Contents of the server's own operational log. -/
def serverLogDemo : List String := ["2024-01-01T00:00:00.000Z INFO: server started\n"]

/-- The retrieval of C6's concrete window on the rewritten manager. -/
def c6PmRun : Except String ProcessOutputResult :=
  pmGetOutput natParse demoReg none demoFs 7 "stdout" none (some "3") (some "5")

/-- The retrieval of C6's concrete window on the core manager. -/
def c6CoreRun : Except String (List String) :=
  coreGetProcessOutput natParse coreDemoReg none demoFs 7 "stdout" none (some "3") (some "5")

/-- A 51-character command string. -/
def longCmd : String := "aaaaaaaaaaaaaaaaaaaaaaaaaaaaaaaaaaaaaaaaaaaaaaaaaaa"

/-- Start arguments whose explicit label collides with `sleepEntry`. -/
def dupArgs : StartArgs :=
  { command := "sleep 60"
    tokens := ["sleep", "60"]
    workingDirectory := some "/tmp"
    environment := none
    label := some "sleep 60 in /tmp" }

def dupReg : Reg := [(11, sleepEntry)]

/-! Helper lemmas. -/

theorem pySliceLast_zero {α : Type} (l : List α) : pySliceLast 0 l = l := by
  simp [pySliceLast]

theorem pySliceLast_nil {α : Type} (n : Int) : pySliceLast n ([] : List α) = [] := by
  unfold pySliceLast
  split <;> simp

theorem pySliceLast_of_length_le {α : Type} {l : List α} {n : Int}
    (h : (l.length : Int) ≤ n) : pySliceLast n l = l := by
  unfold pySliceLast
  split
  · rename_i hpos
    have hle : l.length ≤ n.toNat := (Int.le_toNat (le_of_lt hpos)).mpr h
    simp [Nat.sub_eq_zero_of_le hle]
  · rename_i hneg
    have h0 : (l.length : Int) ≤ 0 := le_trans h (not_lt.mp hneg)
    have hlen : l.length = 0 := by exact_mod_cast le_antisymm h0 (by exact_mod_cast Nat.zero_le _)
    rw [List.eq_nil_of_length_eq_zero hlen]
    simp

theorem pmApplyLines_nil (lines : Option Int) : pmApplyLines lines [] = [] := by
  cases lines with
  | none => rfl
  | some n => simp [pmApplyLines, pySliceLast_nil]

theorem coreApplyLines_nil (lines : Option Int) : coreApplyLines lines [] = [] := by
  cases lines with
  | none => rfl
  | some n => simp [coreApplyLines, pySliceLast_nil]

theorem coreFilterLines_mem {TS : Type} {parseIso : String → Option TS}
    {keep : TS → Bool} {ln : String} {l : List String} :
    ln ∈ coreFilterLines parseIso keep l ↔
      ln ∈ l ∧ ∃ t, parseIso (firstToken ln) = some t ∧ keep t = true := by
  unfold coreFilterLines
  rw [List.mem_filter]
  refine and_congr_right fun _ => ?_
  cases h : parseIso (firstToken ln) <;> simp [h]

/-- When the raising filter of `process_manager.py` succeeds, every line's
leading token parses and the result coincides with the absorbing filter of
`core.py`. -/
theorem pmFilterLines_eq_ok_iff {TS : Type} {parseIso : String → Option TS}
    {keep : TS → Bool} {l r : List String} :
    pmFilterLines parseIso keep l = .ok r ↔
      (l.all fun ln => (parseIso (firstToken ln)).isSome) = true ∧
      r = coreFilterLines parseIso keep l := by
  induction l generalizing r with
  | nil =>
    simp [pmFilterLines, coreFilterLines, eq_comm]
  | cons hd tl ih =>
    simp only [pmFilterLines]
    cases hp : parseIso (firstToken hd) with
    | none =>
      simp [hp, List.all_cons]
    | some t =>
      have hfilter : coreFilterLines parseIso keep (hd :: tl) =
          if keep t then hd :: coreFilterLines parseIso keep tl
          else coreFilterLines parseIso keep tl := by
        unfold coreFilterLines
        rw [List.filter_cons]
        simp [hp]
      cases hrec : pmFilterLines parseIso keep tl with
      | error e =>
        constructor
        · intro h; cases h
        · rintro ⟨hall, hr⟩
          simp only [List.all_cons, Bool.and_eq_true] at hall
          have := ih.mpr ⟨hall.2, rfl⟩
          rw [hrec] at this
          cases this
      | ok r' =>
        obtain ⟨hall', hr'⟩ := ih.mp hrec
        constructor
        · intro h
          have hr : (if keep t then hd :: r' else r') = r := Except.ok.inj h
          refine ⟨by simp [List.all_cons, hp, hall'], ?_⟩
          rw [hfilter, ← hr, hr']
        · rintro ⟨hall, hr⟩
          rw [hfilter] at hr
          rw [hr, hr']

theorem regFind_mem {reg : Reg} {pid : Nat} {ent : ProcEntry}
    (h : regFind reg pid = some ent) : (pid, ent) ∈ reg := by
  unfold regFind at h
  cases hf : reg.find? fun kv => kv.1 == pid with
  | none => rw [hf] at h; cases h
  | some kv =>
    rw [hf] at h
    have hmem := List.mem_of_find?_eq_some hf
    have hpred := List.find?_some hf
    have hpid : kv.1 = pid := by simpa using hpred
    have hent : kv.2 = ent := by simpa using h
    have : kv = (pid, ent) := by
      cases kv
      simp_all
    rwa [this] at hmem

theorem regInsert_mem {reg : Reg} {pid : Nat} {e : ProcEntry} {p : Nat × ProcEntry}
    (h : p ∈ regInsert reg pid e) : p = (pid, e) ∨ p ∈ reg := by
  unfold regInsert at h
  split at h
  · obtain ⟨kv, hkv, hmap⟩ := List.mem_map.mp h
    by_cases hk : kv.1 == pid
    · left; rw [if_pos hk] at hmap; exact hmap.symm
    · right; rw [if_neg hk] at hmap; rwa [← hmap]
  · rcases List.mem_append.mp h with hmem | hmem
    · right; exact hmem
    · left; simpa using hmem

theorem regUpdate_mem {reg : Reg} {pid : Nat} {e : ProcEntry} {p : Nat × ProcEntry}
    (h : p ∈ regUpdate reg pid e) : p = (pid, e) ∨ p ∈ reg := by
  unfold regUpdate at h
  obtain ⟨kv, hkv, hmap⟩ := List.mem_map.mp h
  by_cases hk : kv.1 == pid
  · left; rw [if_pos hk] at hmap; exact hmap.symm
  · right; rw [if_neg hk] at hmap; rwa [← hmap]

theorem pmDupCheck_false {reg : Reg} {lab : String} (h : pmDupCheck reg lab = false) :
    ∀ p ∈ reg, p.2.status = Status.running → p.2.label ≠ lab := by
  intro p hp hrun hlab
  have : pmDupCheck reg lab = true :=
    List.any_eq_true.mpr ⟨p, hp, by simp [hlab, hrun]⟩
  rw [h] at this
  cases this

theorem pmMonitorUpdate_running {e : ProcEntry} {poll : Option Int} {now : String}
    (h : (pmMonitorUpdate e poll now).status = Status.running) :
    pmMonitorUpdate e poll now = e := by
  by_cases hg : e.status ≠ Status.running ∨ e.proc = none
  · simp [pmMonitorUpdate, hg]
  · cases poll with
    | none => simp [pmMonitorUpdate, hg]
    | some code =>
      exfalso
      rw [pmMonitorUpdate, if_neg hg] at h
      simp at h

theorem pmStopResolved_entry (ent : ProcEntry) (force : Bool) (b : StopBehavior)
    (now : String) :
    (pmStopResolved ent force b now).entry = ent ∨
      (pmStopResolved ent force b now).entry.status = Status.terminated := by
  by_cases h1 : ent.status ≠ Status.running
  · rw [pmStopResolved, if_pos h1]; left; rfl
  · rw [pmStopResolved, if_neg h1]
    dsimp only
    repeat' split
    all_goals first | (left; rfl) | (right; rfl)

theorem runningLabelsUnique_nil : RunningLabelsUnique [] := by
  intro p1 p2 h1
  simp at h1

theorem applyOp_preserves {reg : Reg} (op : PmOp) (h : RunningLabelsUnique reg) :
    RunningLabelsUnique (applyOp reg op) := by
  cases op with
  | startOp a spawn t =>
    show RunningLabelsUnique (pmStart reg a spawn t).1
    unfold pmStart
    cases hdup : pmDupCheck reg (get_label a.label a.command a.workingDirectory) with
    | true => simpa [hdup] using h
    | false =>
      cases spawn with
      | fail => simpa [hdup] using h
      | ok pid =>
        simp only [hdup, Bool.false_eq_true, if_false]
        intro p1 p2 h1 h2 hr1 hr2 hlab
        rcases regInsert_mem h1 with rfl | h1' <;> rcases regInsert_mem h2 with rfl | h2'
        · rfl
        · exact absurd hlab.symm (pmDupCheck_false hdup p2 h2' hr2)
        · exact absurd hlab (pmDupCheck_false hdup p1 h1' hr1)
        · exact h p1 p2 h1' h2' hr1 hr2 hlab
  | stopOp pid force b now =>
    show RunningLabelsUnique (pmStopReg reg pid force b now).1
    unfold pmStopReg
    cases hfind : regFind reg pid with
    | none => simpa using h
    | some ent =>
      simp only
      intro p1 p2 h1 h2 hr1 hr2 hlab
      have hmem := regFind_mem hfind
      have hcase : ∀ p : Nat × ProcEntry,
          p ∈ regUpdate reg pid (pmStopResolved ent force b now).entry →
          p.2.status = Status.running → p ∈ reg := by
        intro p hp hrun
        rcases regUpdate_mem hp with rfl | hp'
        · rcases pmStopResolved_entry ent force b now with he | he
          · rw [he]; exact hmem
          · have h' : (pmStopResolved ent force b now).entry.status = Status.running := hrun
            rw [h'] at he
            simp at he
        · exact hp'
      exact h p1 p2 (hcase p1 h1 hr1) (hcase p2 h2 hr2) hr1 hr2 hlab
  | monitorOp poll now =>
    show RunningLabelsUnique (pmMonitorTick reg poll now)
    intro p1 p2 h1 h2 hr1 hr2 hlab
    unfold pmMonitorTick at h1 h2
    obtain ⟨kv1, hkv1, hm1⟩ := List.mem_map.mp h1
    obtain ⟨kv2, hkv2, hm2⟩ := List.mem_map.mp h2
    have e1 : p1 = kv1 := by
      rw [← hm1] at hr1 ⊢
      have := pmMonitorUpdate_running hr1
      cases kv1
      simp_all
    have e2 : p2 = kv2 := by
      rw [← hm2] at hr2 ⊢
      have := pmMonitorUpdate_running hr2
      cases kv2
      simp_all
    rw [e1] at hr1 hlab ⊢
    rw [e2] at hr2 hlab ⊢
    exact h kv1 kv2 hkv1 hkv2 hr1 hr2 hlab

theorem reachable_labels_unique {reg : Reg} (h : Reachable reg) :
    RunningLabelsUnique reg := by
  induction h with
  | init => exact runningLabelsUnique_nil
  | step _ op ih => exact applyOp_preserves op ih

theorem coreFilter_window_empty {TS : Type} [LinearOrder TS]
    {parseIso : String → Option TS} {s b : TS} (hsb : b ≤ s) (l : List String) :
    coreFilterLines parseIso (fun t => decide (t < b))
      (coreFilterLines parseIso (fun t => decide (s ≤ t)) l) = [] := by
  rw [List.eq_nil_iff_forall_not_mem]
  intro ln hln
  rcases coreFilterLines_mem.mp hln with ⟨hmem1, t, hp, hlt⟩
  rcases coreFilterLines_mem.mp hmem1 with ⟨_, t', hp', hge⟩
  rw [hp] at hp'
  have ht : t = t' := Option.some.inj hp'
  have h1 : t < b := of_decide_eq_true hlt
  have h2 : s ≤ t := ht ▸ of_decide_eq_true hge
  exact absurd (lt_of_lt_of_le h1 (le_trans hsb h2)) (lt_irrefl t)

/-- When both raising filters of `process_manager.py` succeed with an empty
window, the final list is empty. -/
theorem pm_window_ok {TS : Type} [LinearOrder TS] {parseIso : String → Option TS}
    {s b : TS} (hsb : b ≤ s) {l l1 l2 : List String}
    (h1 : pmFilterLines parseIso (fun t => decide (s ≤ t)) l = .ok l1)
    (h2 : pmFilterLines parseIso (fun t => decide (t < b)) l1 = .ok l2) :
    l2 = [] := by
  obtain ⟨_, e1⟩ := pmFilterLines_eq_ok_iff.mp h1
  obtain ⟨_, e2⟩ := pmFilterLines_eq_ok_iff.mp h2
  rw [e2, e1]
  exact coreFilter_window_empty hsb l

theorem regInsert_self_mem (reg : Reg) (pid : Nat) (e : ProcEntry) :
    (pid, e) ∈ regInsert reg pid e := by
  unfold regInsert
  split
  · rename_i hany
    obtain ⟨kv, hkv, hpred⟩ := List.any_eq_true.mp hany
    exact List.mem_map.mpr ⟨kv, hkv, by rw [if_pos hpred]⟩
  · exact List.mem_append.mpr (Or.inr (by simp))

theorem pmFilterPipeline_lines_zero {TS : Type} [LinearOrder TS]
    (parseIso : String → Option TS) (bt st : Option String) (all0 : List String) :
    pmFilterPipeline parseIso bt st (some 0) all0
      = pmFilterPipeline parseIso bt st none all0 := by
  unfold pmFilterPipeline
  cases pmApplySince parseIso st all0 with
  | error e => rfl
  | ok all1 =>
    cases pmApplyBefore parseIso bt all1 with
    | error e => rfl
    | ok all2 => simp [pmApplyLines, pySliceLast_zero]

theorem coreFilterPipeline_lines_zero {TS : Type} [LinearOrder TS]
    (parseIso : String → Option TS) (bt st : Option String) (all0 : List String) :
    coreFilterPipeline parseIso bt st (some 0) all0
      = coreFilterPipeline parseIso bt st none all0 := by
  unfold coreFilterPipeline
  cases coreApplySince parseIso st all0 with
  | error e => rfl
  | ok all1 =>
    cases coreApplyBefore parseIso bt all1 with
    | error e => rfl
    | ok all2 => simp [coreApplyLines]

theorem pmFilterPipeline_lines_ge {TS : Type} [LinearOrder TS]
    {parseIso : String → Option TS} {bt st : Option String} {all0 r : List String}
    {n : Int} (h : pmFilterPipeline parseIso bt st none all0 = .ok r)
    (hn : (r.length : Int) ≤ n) :
    pmFilterPipeline parseIso bt st (some n) all0 = .ok r := by
  unfold pmFilterPipeline at h ⊢
  split at h
  · exact Except.noConfusion h
  · rename_i all1 hs1
    split at h
    · exact Except.noConfusion h
    · rename_i all2 hs2
      have h2 : all2 = r := by
        have h3 := Except.ok.inj h
        simpa [pmApplyLines] using h3
      subst h2
      simp only [pmApplyLines]
      rw [pySliceLast_of_length_le hn]

theorem coreFilterPipeline_lines_ge {TS : Type} [LinearOrder TS]
    {parseIso : String → Option TS} {bt st : Option String} {all0 r : List String}
    {n : Int} (h : coreFilterPipeline parseIso bt st none all0 = .ok r)
    (hn : (r.length : Int) ≤ n) :
    coreFilterPipeline parseIso bt st (some n) all0 = .ok r := by
  unfold coreFilterPipeline at h ⊢
  split at h
  · exact Except.noConfusion h
  · rename_i all1 hs1
    split at h
    · exact Except.noConfusion h
    · rename_i all2 hs2
      have h2 : all2 = r := by
        have h3 := Except.ok.inj h
        simpa [coreApplyLines] using h3
      subst h2
      simp only [coreApplyLines]
      by_cases hn0 : n = 0
      · rw [if_pos hn0]
      · rw [if_neg hn0, pySliceLast_of_length_le hn]

theorem pmFilterPipeline_window {TS : Type} [LinearOrder TS]
    {parseIso : String → Option TS} {S B : String} {s b : TS}
    (hS : parseIso S = some s) (hB : parseIso B = some b) (hsb : b ≤ s)
    (hSne : S ≠ "") (hBne : B ≠ "") {lines : Option Int} {all0 r : List String}
    (h : pmFilterPipeline parseIso (some B) (some S) lines all0 = .ok r) :
    r = [] := by
  have hsince : pmApplySince parseIso (some S) all0
      = pmFilterLines parseIso (fun t => decide (s ≤ t)) all0 := by
    simp only [pmApplySince]
    rw [if_neg hSne, hS]
  have hbefore : ∀ l : List String, pmApplyBefore parseIso (some B) l
      = pmFilterLines parseIso (fun t => decide (t < b)) l := by
    intro l
    simp only [pmApplyBefore]
    rw [if_neg hBne, hB]
  unfold pmFilterPipeline at h
  rw [hsince] at h
  split at h
  · exact Except.noConfusion h
  · rename_i all1 hs1
    rw [hbefore all1] at h
    split at h
    · exact Except.noConfusion h
    · rename_i all2 hs2
      have hnil : all2 = [] := pm_window_ok hsb hs1 hs2
      have h2 : pmApplyLines lines all2 = r := Except.ok.inj h
      rw [← h2, hnil]
      exact pmApplyLines_nil lines

theorem coreFilterPipeline_window {TS : Type} [LinearOrder TS]
    {parseIso : String → Option TS} {S B : String} {s b : TS}
    (hS : parseIso S = some s) (hB : parseIso B = some b) (hsb : b ≤ s)
    (hSne : S ≠ "") (hBne : B ≠ "") {lines : Option Int} {all0 r : List String}
    (h : coreFilterPipeline parseIso (some B) (some S) lines all0 = .ok r) :
    r = [] := by
  have hsince : coreApplySince parseIso (some S) all0
      = .ok (coreFilterLines parseIso (fun t => decide (s ≤ t)) all0) := by
    simp only [coreApplySince]
    rw [if_neg hSne, hS]
  have hbefore : ∀ l : List String, coreApplyBefore parseIso (some B) l
      = .ok (coreFilterLines parseIso (fun t => decide (t < b)) l) := by
    intro l
    simp only [coreApplyBefore]
    rw [if_neg hBne, hB]
  unfold coreFilterPipeline at h
  rw [hsince] at h
  simp only [hbefore] at h
  have h2 := Except.ok.inj h
  rw [← h2, coreFilter_window_empty hsb]
  exact coreApplyLines_nil lines

/-! Claim theorems. -/

/-- C1: the claim fails on `process_manager.py`.  Evaluating its stop path on
a running entry with `force = true` and a child that survives both waits
shows the first and only signal delivered is SIGTERM — never SIGKILL — and
the call ends in a timeout error, whereas the core manager's shutdown
sequence (which the claim describes) sends SIGKILL first under `force` and
escalates SIGTERM to SIGKILL otherwise. -/
theorem c1_force_stop_signals :
    (pmStopResolved sleepEntry true stubbornChild "2024-01-01T00:01:00.000Z").signals
        = [Sig.SIGTERM] ∧
    (pmStopResolved sleepEntry true stubbornChild "2024-01-01T00:01:00.000Z").result.error
        = some "timeout" ∧
    (corePerformGracefulShutdown coreSleepEntry true stubbornChild).1 = [Sig.SIGKILL] ∧
    (corePerformGracefulShutdown coreSleepEntry false stubbornChild).1
        = [Sig.SIGTERM, Sig.SIGKILL] :=
  ⟨rfl, rfl, rfl, rfl⟩

/-- C2: the claim fails on `process_manager.py`.  A stop on an entry whose
status is `exited` with stored exit code 3 returns an error result carrying
no exit code (though it sends no signal and leaves the entry unchanged),
whereas the core manager returns the stored state idempotently as the claim
states. -/
theorem c2_stop_nonrunning_idempotent :
    (pmStopResolved exitedEntry false stubbornChild "now").signals = [] ∧
    (pmStopResolved exitedEntry false stubbornChild "now").result
        = { exitCode := none, error := some "Process 11 is not running" } ∧
    (pmStopResolved exitedEntry false stubbornChild "now").entry = exitedEntry ∧
    coreStopProcess (some coreExitedEntry) false stubbornChild
        = { signals := [], result := .ok coreExitedEntry, entry := some coreExitedEntry } :=
  ⟨rfl, rfl, rfl, rfl⟩

/-- C3: the claim fails on `process_manager.py`.  When the monitor observes a
running entry complete with exit code 2, that iteration records
`status = exited` (never `failed`, although its own status comment lists it)
and leaves the handle set, whereas the core manager's monitor sets `failed`,
records exit code and time, and clears the handle as the claim states. -/
theorem c3_monitor_nonzero_exit :
    (pmMonitorUpdate sleepEntry (some 2) "T").status = Status.exited ∧
    (pmMonitorUpdate sleepEntry (some 2) "T").proc = some 11 ∧
    (coreMonitorUpdate coreSleepEntry (some 2) "T").status = Status.failed ∧
    (coreMonitorUpdate coreSleepEntry (some 2) "T").proc = none ∧
    (coreMonitorUpdate coreSleepEntry (some 2) "T").exitCode = some 2 ∧
    (coreMonitorUpdate coreSleepEntry (some 2) "T").exitTime = some "T" :=
  ⟨rfl, rfl, rfl, rfl, rfl, rfl⟩

/-- C4: the claim fails on `process_manager.py`.  Because the registry
lookup precedes its `pid == 0` special case and pid 0 is never a registry
entry, `get_output(0, ...)` soft-fails to an empty successful output and the
configured server log is never read (the special case is dead code), whereas
the core manager returns the server log contents for pid 0 regardless of the
stream argument, as the claim states. -/
theorem c4_pid0_server_log :
    pmGetOutput natParse ([] : List (Nat × ProcEntry)) (some serverLogDemo)
        (fun _ => none) 0 "stdout" none none none = .ok { output := [] } ∧
    serverLogDemo ≠ [] ∧
    coreGetProcessOutput natParse ([] : List (Nat × CoreProcessInfo)) (some serverLogDemo)
        (fun _ => none) 0 "not-a-stream" none none none = .ok serverLogDemo :=
  ⟨rfl, by simp [serverLogDemo], rfl⟩

/-- C7: the claim fails on `process_manager.py`.  With `since_time` supplied
and a log line whose leading token is not a parseable timestamp, that
iteration's filter raises, surfacing an error to the caller (despite its
comment claiming it was copied from the previous implementation), whereas
the core manager drops the line and succeeds as the claim states. -/
theorem c7_unparseable_line :
    pmGetOutput natParse demoReg none badLineFs 7 "stdout" none none (some "5")
        = .error "Invalid isoformat string" ∧
    coreGetProcessOutput natParse coreDemoReg none badLineFs 7 "stdout" none none (some "5")
        = .ok [] :=
  ⟨rfl, rfl⟩

/-- C10: in `process_manager.py`, a get_output call whose pid has no
registry entry returns a successful result with an empty output list — the
`ValueError` of the lookup is swallowed and no error result is produced —
for every stream, tail bound and time window. -/
theorem c10_unknown_pid_soft_fail {TS : Type} [LinearOrder TS]
    (parseIso : String → Option TS) (reg : List (Nat × ProcEntry))
    (serverLog : Option (List String)) (fs : String → Option (List String))
    (pid : Nat) (stream : String) (lines : Option Int)
    (beforeTime sinceTime : Option String) (h : regFind reg pid = none) :
    pmGetOutput parseIso reg serverLog fs pid stream lines beforeTime sinceTime
        = .ok { output := [] } := by
  unfold pmGetOutput
  rw [h]

/-- Witness for C10 at a concrete input: pid 99 is not registered. -/
theorem c10_unknown_pid_soft_fail_witness :
    regFind demoReg 99 = none ∧
    pmGetOutput natParse demoReg none demoFs 99 "stdout" (some 5) none none
        = .ok { output := [] } :=
  ⟨rfl, c10_unknown_pid_soft_fail natParse demoReg none demoFs 99 "stdout" (some 5)
    none none rfl⟩

/-- C8: at every reachable registry state of `process_manager.py` no two
running entries share a label: start refuses whenever a running entry
already carries the computed label (leaving the registry unchanged), and the
label-uniqueness invariant is preserved by every registry operation from the
empty initial registry. -/
theorem c8_running_labels_unique :
    (∀ (reg : Reg) (a : StartArgs) (spawn : SpawnResult) (t : String),
      (∃ p ∈ reg, p.2.status = Status.running ∧
          p.2.label = get_label a.label a.command a.workingDirectory) →
      pmStart reg a spawn t = (reg, .error "Process with label already running")) ∧
    (∀ reg : Reg, Reachable reg → RunningLabelsUnique reg) := by
  constructor
  · rintro reg a spawn t ⟨p, hp, hrun, hlab⟩
    have hdup : pmDupCheck reg (get_label a.label a.command a.workingDirectory) = true :=
      List.any_eq_true.mpr ⟨p, hp, by simp [hlab, hrun]⟩
    simp [pmStart, hdup]
  · intro reg h
    exact reachable_labels_unique h

/-- Witness for C8: a duplicate running label is refused at a concrete
registry, and a concrete two-operation reachable state satisfies the
invariant. -/
theorem c8_running_labels_unique_witness :
    pmStart dupReg dupArgs (.ok 12) "t1"
        = (dupReg, .error "Process with label already running") ∧
    RunningLabelsUnique
      (applyOp (applyOp [] (.startOp dupArgs (.ok 11) "t0"))
        (.monitorOp (fun _ => some 0) "t2")) :=
  ⟨c8_running_labels_unique.1 dupReg dupArgs (.ok 12) "t1"
      ⟨(11, sleepEntry), by simp [dupReg], rfl, rfl⟩,
    c8_running_labels_unique.2 _ ((Reachable.init.step _).step _)⟩

/-- C5 counterexample: `lines = 0` does not return the empty list — on a
two-line log both implementations return both lines, because Python's
`all_lines[-0:]` is the whole list and the core manager's `if lines:` treats
0 as absent. -/
theorem c5_lines_zero_counterexample :
    pmGetOutput natParse demoReg none demoFs 7 "stdout" (some 0) none none
        = .ok { output := demoLines } ∧
    demoLines ≠ [] ∧
    coreGetProcessOutput natParse coreDemoReg none demoFs 7 "stdout" (some 0) none none
        = .ok demoLines :=
  ⟨rfl, by simp [demoLines], rfl⟩

/-- C5 amended: the tail step ignores `lines = 0`, so `lines = 0` returns
all remaining lines rather than the empty list, and `lines = N` with N at
least the number of remaining lines returns all of them — in both
implementations. -/
theorem c5_tail_bounds {TS : Type} [LinearOrder TS] (parseIso : String → Option TS)
    (reg : List (Nat × ProcEntry)) (coreReg : List (Nat × CoreProcessInfo))
    (serverLog : Option (List String)) (fs : String → Option (List String))
    (pid : Nat) (stream : String) (beforeTime sinceTime : Option String) :
    (pmGetOutput parseIso reg serverLog fs pid stream (some 0) beforeTime sinceTime
      = pmGetOutput parseIso reg serverLog fs pid stream none beforeTime sinceTime) ∧
    (coreGetProcessOutput parseIso coreReg serverLog fs pid stream (some 0)
        beforeTime sinceTime
      = coreGetProcessOutput parseIso coreReg serverLog fs pid stream none
        beforeTime sinceTime) ∧
    (∀ (out : ProcessOutputResult) (n : Int),
      pmGetOutput parseIso reg serverLog fs pid stream none beforeTime sinceTime
        = .ok out → (out.output.length : Int) ≤ n →
      pmGetOutput parseIso reg serverLog fs pid stream (some n) beforeTime sinceTime
        = .ok out) ∧
    (∀ (out : List String) (n : Int),
      coreGetProcessOutput parseIso coreReg serverLog fs pid stream none
          beforeTime sinceTime = .ok out → (out.length : Int) ≤ n →
      coreGetProcessOutput parseIso coreReg serverLog fs pid stream (some n)
          beforeTime sinceTime = .ok out) := by
  refine ⟨?_, ?_, ?_, ?_⟩
  · unfold pmGetOutput
    cases regFind reg pid with
    | none => rfl
    | some ent =>
      dsimp only
      by_cases hp0 : pid = 0
      · rw [if_pos hp0, if_pos hp0]
      · rw [if_neg hp0, if_neg hp0]
        by_cases hst : stream ∉ (["stdout", "stderr", "combined"] : List String)
        · rw [if_pos hst, if_pos hst]
        · rw [if_neg hst, if_neg hst]
          cases fs (ent.logStem ++ "." ++ stream) with
          | none => rfl
          | some all0 =>
            dsimp only
            rw [pmFilterPipeline_lines_zero]
  · unfold coreGetProcessOutput
    cases coreResolveLogFile coreReg serverLog fs pid stream with
    | error e => rfl
    | ok lf =>
      cases lf with
      | none => rfl
      | some all0 =>
        dsimp only
        rw [coreFilterPipeline_lines_zero]
  · intro out n hnone hlen
    revert hnone
    unfold pmGetOutput
    cases regFind reg pid with
    | none => exact id
    | some ent =>
      dsimp only
      by_cases hp0 : pid = 0
      · rw [if_pos hp0, if_pos hp0]
        exact id
      · rw [if_neg hp0, if_neg hp0]
        by_cases hst : stream ∉ (["stdout", "stderr", "combined"] : List String)
        · rw [if_pos hst, if_pos hst]
          exact id
        · rw [if_neg hst, if_neg hst]
          cases fs (ent.logStem ++ "." ++ stream) with
          | none => exact id
          | some all0 =>
            dsimp only
            cases hp : pmFilterPipeline parseIso beforeTime sinceTime none all0 with
            | error e =>
              intro hnone
              exact Except.noConfusion hnone
            | ok res =>
              intro hnone
              have h2 : ({ output := res } : ProcessOutputResult) = out :=
                Except.ok.inj hnone
              have hlen2 : (res.length : Int) ≤ n := by
                rw [← h2] at hlen
                exact hlen
              rw [pmFilterPipeline_lines_ge hp hlen2]
              show Except.ok ({ output := res } : ProcessOutputResult) = Except.ok out
              rw [h2]
  · intro out n hnone hlen
    revert hnone
    unfold coreGetProcessOutput
    cases coreResolveLogFile coreReg serverLog fs pid stream with
    | error e => exact id
    | ok lf =>
      cases lf with
      | none => exact id
      | some all0 =>
        intro hnone
        exact coreFilterPipeline_lines_ge hnone hlen

/-- Witness for C5's amended claim on a two-line log with a generous tail
bound. -/
theorem c5_tail_bounds_witness :
    pmGetOutput natParse demoReg none demoFs 7 "stdout" (some 5) none none
        = .ok { output := demoLines } ∧
    coreGetProcessOutput natParse coreDemoReg none demoFs 7 "stdout" (some 5) none none
        = .ok demoLines :=
  ⟨(c5_tail_bounds natParse demoReg coreDemoReg none demoFs 7 "stdout" none none).2.2.1
      { output := demoLines } 5 rfl (by decide),
    (c5_tail_bounds natParse demoReg coreDemoReg none demoFs 7 "stdout" none none).2.2.2
      demoLines 5 rfl (by decide)⟩

/-- C6: with both time bounds supplied, nonempty and parseable, and
since ≥ before, every successful retrieval returns the empty list, for any
file contents, in both implementations.  The nonemptiness hypotheses are
sound because the empty string is not a parseable ISO timestamp (Python
truthiness would skip the filter); the rewritten manager additionally needs
pid 0 unregistered, which holds in every reachable state because OS pids are
positive. -/
theorem c6_window_empty {TS : Type} [LinearOrder TS] (parseIso : String → Option TS)
    (reg : List (Nat × ProcEntry)) (coreReg : List (Nat × CoreProcessInfo))
    (serverLog : Option (List String)) (fs : String → Option (List String))
    (pid : Nat) (stream : String) (lines : Option Int) (S B : String) {s b : TS}
    (hS : parseIso S = some s) (hB : parseIso B = some b) (hsb : b ≤ s)
    (hSne : S ≠ "") (hBne : B ≠ "") (h0 : regFind reg 0 = none) :
    (∀ out, pmGetOutput parseIso reg serverLog fs pid stream lines (some B) (some S)
        = .ok out → out.output = []) ∧
    (∀ out, coreGetProcessOutput parseIso coreReg serverLog fs pid stream lines
        (some B) (some S) = .ok out → out = []) := by
  constructor
  · intro out
    unfold pmGetOutput
    cases hfind : regFind reg pid with
    | none =>
      intro h
      rw [← Except.ok.inj h]
    | some ent =>
      dsimp only
      by_cases hp0 : pid = 0
      · subst hp0
        rw [h0] at hfind
        exact Option.noConfusion hfind
      · rw [if_neg hp0]
        by_cases hst : stream ∉ (["stdout", "stderr", "combined"] : List String)
        · rw [if_pos hst]
          intro h
          exact Except.noConfusion h
        · rw [if_neg hst]
          cases fs (ent.logStem ++ "." ++ stream) with
          | none =>
            intro h
            rw [← Except.ok.inj h]
          | some all0 =>
            dsimp only
            cases hp : pmFilterPipeline parseIso (some B) (some S) lines all0 with
            | error e =>
              intro h
              exact Except.noConfusion h
            | ok res =>
              intro h
              rw [← Except.ok.inj h]
              exact pmFilterPipeline_window hS hB hsb hSne hBne hp
  · intro out
    unfold coreGetProcessOutput
    cases coreResolveLogFile coreReg serverLog fs pid stream with
    | error e =>
      intro h
      exact Except.noConfusion h
    | ok lf =>
      cases lf with
      | none =>
        intro h
        rw [← Except.ok.inj h]
      | some all0 =>
        intro h
        exact coreFilterPipeline_window hS hB hsb hSne hBne h

/-- Witness for C6 on a concrete two-line log with the window
since = 5, before = 3. -/
theorem c6_window_empty_witness :
    (c6PmRun.toOption.getD { output := ["?"] }).output = [] ∧
    c6CoreRun.toOption.getD ["?"] = [] := by
  have h := c6_window_empty natParse demoReg coreDemoReg none demoFs 7 "stdout" none
    "5" "3" (s := 5) (b := 3) rfl rfl (by decide) (by decide) (by decide) rfl
  exact ⟨h.1 _ rfl, h.2 _ rfl⟩

/-- C9: the claim fails on the code: `get_label` truncates a command longer
than 50 characters to its first 47 characters plus "...", so for a
51-character command the generated label is not formed from the exact
command string. -/
theorem c9_label_counterexample :
    get_label none longCmd (some "/tmp") ≠ longCmd ++ " in " ++ "/tmp" ∧
    get_label none longCmd (some "/tmp")
      = String.mk (longCmd.data.take 47) ++ "..." ++ " in " ++ "/tmp" := by
  constructor
  · decide
  · rfl

/-- C9 amended: with no supplied label and a supplied working directory the
label is "<cmd_display> in <working_directory>" formed from the exact
working directory argument, where cmd_display is the command itself when it
has at most 50 characters and its first 47 characters plus "..." otherwise.
A working-directory string handed to `get_label` by `start` is never empty
(Python applies `str(working_directory)` to a truthy `Path`), so the nonemptiness
hypothesis of the first conjunct excludes no start call; the remaining
conjuncts additionally settle the absent and empty-string branches (both
display ".") and show that the entry inserted by a successful start carries
exactly the computed label for every working-directory argument. -/
theorem c9_label_format (cmd : String) :
    (∀ wd : String, wd ≠ "" →
      (cmd.length ≤ 50 → get_label none cmd (some wd) = cmd ++ " in " ++ wd) ∧
      (50 < cmd.length → get_label none cmd (some wd)
          = String.mk (cmd.data.take 47) ++ "..." ++ " in " ++ wd)) ∧
    ((cmd.length ≤ 50 → get_label none cmd none = cmd ++ " in " ++ ".") ∧
      (50 < cmd.length → get_label none cmd none
          = String.mk (cmd.data.take 47) ++ "..." ++ " in " ++ ".")) ∧
    ((cmd.length ≤ 50 → get_label none cmd (some "") = cmd ++ " in " ++ ".") ∧
      (50 < cmd.length → get_label none cmd (some "")
          = String.mk (cmd.data.take 47) ++ "..." ++ " in " ++ ".")) ∧
    (∀ (wdArg : Option String) (reg : Reg) (tokens : List String)
        (env : Option (List (String × String))) (pid : Nat) (t : String),
      pmDupCheck reg (get_label none cmd wdArg) = false →
      ∃ e, (pid, e) ∈ (pmStart reg
          { command := cmd, tokens := tokens, workingDirectory := wdArg,
            environment := env, label := none } (.ok pid) t).1 ∧
        e.label = get_label none cmd wdArg ∧ e.status = Status.running) := by
  refine ⟨?_, ⟨?_, ?_⟩, ⟨?_, ?_⟩, ?_⟩
  · intro wd hwd
    constructor
    · intro hle
      unfold get_label
      rw [if_neg (by simp)]
      dsimp only
      rw [if_pos hle, if_neg hwd]
    · intro hgt
      unfold get_label
      rw [if_neg (by simp)]
      dsimp only
      rw [if_neg (not_le.mpr hgt), if_neg hwd]
  · intro hle
    unfold get_label
    rw [if_neg (by simp)]
    dsimp only
    rw [if_pos hle]
  · intro hgt
    unfold get_label
    rw [if_neg (by simp)]
    dsimp only
    rw [if_neg (not_le.mpr hgt)]
  · intro hle
    unfold get_label
    rw [if_neg (by simp)]
    dsimp only
    rw [if_pos hle, if_pos rfl]
  · intro hgt
    unfold get_label
    rw [if_neg (by simp)]
    dsimp only
    rw [if_neg (not_le.mpr hgt), if_pos rfl]
  · intro wdArg reg tokens env pid t hdup
    unfold pmStart
    rw [if_neg (by simp [hdup])]
    exact ⟨_, regInsert_self_mem reg pid _, rfl, rfl⟩

/-- Witness for the amended C9 claim: a short and a long command with a
supplied working directory, plus the absent-working-directory branch. -/
theorem c9_label_format_witness :
    get_label none "sleep 60" (some "/tmp") = "sleep 60" ++ " in " ++ "/tmp" ∧
    get_label none longCmd (some "/tmp")
      = String.mk (longCmd.data.take 47) ++ "..." ++ " in " ++ "/tmp" ∧
    get_label none "sleep 60" none = "sleep 60" ++ " in " ++ "." :=
  ⟨((c9_label_format "sleep 60").1 "/tmp" (by decide)).1 (by decide),
    ((c9_label_format longCmd).1 "/tmp" (by decide)).2 (by decide),
    (c9_label_format "sleep 60").2.1.1 (by decide)⟩

end Persistproc
